import Mathlib

/-
Shallow embedding of the atmosphere schema-derivation engine
(bmc-labs/atmosphere): the derive-macro parsing pass
(atmosphere-macros/src/schema/table.rs), the process-wide schema registry of
the derive entry point (atmosphere-macros/src/lib.rs), the generated bind
dispatcher and relation impls (table.rs), the generated query body
(lib.rs, query attribute macro) and the sql helper macro (lib.rs).
Rust machine values bound to statements are abstracted to an integer type;
entity instances are field valuations.
-/

namespace Atmosphere

/-- Parameter values bound onto a statement (the concrete Rust field types are
irrelevant to the dispatch logic). -/
abbrev Value := Int

/-- An entity instance, seen as the valuation of its named fields. -/
abbrev Instance := String → Value

/-- Descriptor of a primary-key column produced by field classification
(schema/column.rs): it carries the field identifier. -/
structure PrimaryKey where
  field : String
deriving DecidableEq

/-- Descriptor of a foreign-key column: field identifier plus the referenced
entity (the `on` target used by Table::quote_rel_impls; `on` is a Lean
keyword, hence the name `on_entity`). -/
structure ForeignKey where
  field : String
  on_entity : String
deriving DecidableEq

/-- Descriptor of a plain data column. -/
structure DataColumn where
  field : String
deriving DecidableEq

/-- Descriptor of a meta (timestamp) column. -/
structure MetaColumn where
  field : String
deriving DecidableEq

/-- A classified column, as produced by Column::try_from (schema/column.rs)
before Table::parse partitions the set. The four roles are mutually
exclusive by construction. -/
inductive Column where
  | primaryKey (pk : PrimaryKey)
  | foreignKey (fk : ForeignKey)
  | dataColumn (dc : DataColumn)
  | metaColumn (mc : MetaColumn)
deriving DecidableEq

/-- Column::as_primary_key. -/
def Column.as_primary_key : Column → Option PrimaryKey
  | .primaryKey pk => some pk
  | _ => none

/-- Column::as_foreign_key. -/
def Column.as_foreign_key : Column → Option ForeignKey
  | .foreignKey fk => some fk
  | _ => none

/-- Column::as_data_column. -/
def Column.as_data_column : Column → Option DataColumn
  | .dataColumn dc => some dc
  | _ => none

/-- Column::as_meta_column. -/
def Column.as_meta_column : Column → Option MetaColumn
  | .metaColumn mc => some mc
  | _ => none

/-- Field identifier of a classified column. -/
def Column.field : Column → String
  | .primaryKey pk => pk.field
  | .foreignKey fk => fk.field
  | .dataColumn dc => dc.field
  | .metaColumn mc => mc.field

/-- TableId (table.rs lines 13-17): the schema / table name pair carried by
the table attribute. -/
structure TableId where
  schema : String
  table : String
deriving DecidableEq

/-- Tail of TableId::parse (table.rs lines 47-55): turn the two accumulated
options into a TableId or the corresponding missing-value error. -/
def TableId.finish : Option String → Option String → Except String TableId
  | none, _ => Except.error ("`#[table]` requies a value for `schema`")
  | some _, none => Except.error ("`#[table]` requires a value for `name`")
  | some s, some t => Except.ok { schema := s, table := t }

/-- Loop of TableId::parse (table.rs lines 24-45) over the stream of
`ident = literal` pairs: assign schema or name, reject any other key. -/
def TableId.loop : List (String × String) → Option String → Option String → Except String TableId
  | [], schema, table => TableId.finish schema table
  | (k, v) :: rest, schema, table =>
    if k = "schema" then TableId.loop rest (some v) table
    else if k = "name" then TableId.loop rest schema (some v)
    else Except.error ("`#[table]` supports only the values `schema` and `name`")

/-- TableId::parse (table.rs lines 19-57). The attribute argument token
stream is modelled as the list of comma-separated `ident = literal` pairs
it yields. -/
def TableId.parseArgs (args : List (String × String)) : Except String TableId :=
  TableId.loop args none none

/-- Field list shapes of syn::ItemStruct as matched in Table::parse
(table.rs lines 90-101). For named fields the payload is the list of
columns after classification by Column::try_from, in declaration order. -/
inductive FieldsKind where
  | named (columns : List Column)
  | unnamed
  | unit
deriving DecidableEq

/-- The parsed item a derive invocation works on: struct identifier, its
attributes (path plus argument pairs), and its field list. -/
structure ItemStruct where
  ident : String
  attrs : List (String × List (String × String))
  fields : FieldsKind
deriving DecidableEq

/-- Table (table.rs lines 59-72). The source stores foreign keys, data
columns and meta columns in HashSets; they are modelled as the lists an
iteration of those sets yields. -/
structure Table where
  ident : String
  id : TableId
  primary_key : PrimaryKey
  foreign_keys : List ForeignKey
  data_columns : List DataColumn
  meta_columns : List MetaColumn
deriving DecidableEq

/-- Table::parse (table.rs lines 74-163). The named fields are collected
into a `HashSet<Column>` whose iteration order is unspecified: `iter`
stands for that iteration, and every theorem below that quantifies over it
assumes only what the source guarantees, namely that `iter l` is a
permutation of `l`. -/
def Table.parseWith (iter : List Column → List Column) (item : ItemStruct) : Except String Table := do
  let args ← match item.attrs.find? (fun a => a.1 == "table") with
    | some a => Except.ok a.2
    | none => Except.error ("You need to use the `#[table]` attribute if you want to derive `Schema`")
  let tid ← TableId.parseArgs args
  let declared ← match item.fields with
    | FieldsKind.named cols => Except.ok cols
    | _ => Except.error (item.ident ++ " must use named fields in order to derive `Schema`")
  let columns := iter declared
  let primary_keys := columns.filterMap Column.as_primary_key
  if primary_keys.length > 1 then
    Except.error (item.ident ++ " declares more than one column as its primary key – only one is allowed")
  else
    match primary_keys with
    | [] => Except.error (item.ident ++ " must declare one field as its primary key (using `#[primary_key]`")
    | pk :: _ =>
      Except.ok {
        ident := item.ident
        id := tid
        primary_key := pk
        foreign_keys := columns.filterMap Column.as_foreign_key
        data_columns := columns.filterMap Column.as_data_column
        meta_columns := columns.filterMap Column.as_meta_column
      }

/-- Schema enum of the derive entry point (lib.rs uses only Schema::Default as
the first component of a registry key). -/
inductive Schema where
  | default
deriving DecidableEq

/-- Registry keys: the tid of lib.rs line 37, a (Schema, struct identifier)
pair. -/
abbrev Tid := Schema × String

/-- The process-wide database registry (lib.rs: a mutex-guarded
HashMap<(Schema, String), Table>), modelled as an association list with the
most recent insertion in front. -/
abbrev Database := List (Tid × Table)

/-- HashMap lookup on the association-list model. -/
def dbLookup : Database → Tid → Option Table
  | [], _ => none
  | e :: rest, k => if e.1 = k then some e.2 else dbLookup rest k

/-- HashMap::contains_key on the association-list model. -/
def dbContainsKey (db : Database) (k : Tid) : Bool :=
  (dbLookup db k).isSome

/-- Registration step of the table derive entry point (lib.rs lines 35-47):
take the lock, build tid from Schema::Default and the struct identifier,
assert the key is absent, insert. A failed assert aborts the build (a panic
inside the proc macro), modelled as `none`. -/
def registerTable (db : Database) (t : Table) : Option Database :=
  let tid : Tid := (Schema.default, t.ident)
  if dbContainsKey db tid then none
  else some ((tid, t) :: db)

/-- A sequence of derive invocations, each performing its registration step in
turn; the whole build aborts as soon as one registration fails. -/
def registerAll : Database → List Table → Option Database
  | db, [] => some db
  | db, t :: ts =>
    match registerTable db t with
    | none => none
    | some db2 => registerAll db2 ts

/-- The impl Table block emitted by Table::quote_table_impl (table.rs lines
166-207): the associated constants of the atmosphere-core Table trait. Each
emitted column descriptor carries its column's field identifier. -/
structure TableImpl where
  SCHEMA : String
  TABLE : String
  PRIMARY_KEY : PrimaryKey
  FOREIGN_KEYS : List ForeignKey
  DATA_COLUMNS : List DataColumn
  META_COLUMNS : List MetaColumn
deriving DecidableEq

/-- Table::quote_table_impl (table.rs lines 166-207): SCHEMA and TABLE come
from the parsed TableId, the column constants from the parsed column sets. -/
def Table.quote_table_impl (t : Table) : TableImpl :=
  { SCHEMA := t.id.schema
    TABLE := t.id.table
    PRIMARY_KEY := t.primary_key
    FOREIGN_KEYS := t.foreign_keys
    DATA_COLUMNS := t.data_columns
    META_COLUMNS := t.meta_columns }

/-- The pk accessor emitted by Table::quote_table_impl (table.rs lines
202-204): fn pk(&self) returns &self.#pk_field where pk_field is the
primary-key field identifier. -/
def TableImpl.pk (t : TableImpl) (self : Instance) : Value :=
  self t.PRIMARY_KEY.field

/-- BindError::Unknown of atmosphere-core, as emitted by quote_bind_impl:
carries the field name of the column that matched nothing. -/
inductive BindError where
  | unknown (field : String)
deriving DecidableEq

/-- Error::Bind of atmosphere-core, the error type of the generated bind. -/
inductive Error where
  | bind (e : BindError)
deriving DecidableEq

/-- A statement being built: dyn_bind appends a bound parameter, so the
relevant state is the ordered list of parameters bound so far. -/
abbrev Query := List Value

/-- Column names tested by the if-chain that Table::quote_bind_impl emits
(table.rs lines 293-324), in emission order: the primary key first, then
every foreign key, then every data column. Meta columns are not emitted. -/
def Table.bindOrder (t : Table) : List String :=
  t.primary_key.field :: (t.foreign_keys.map ForeignKey.field ++ t.data_columns.map DataColumn.field)

/-- Names of all columns of the descriptor, meta columns included. -/
def Table.allColumnFields (t : Table) : List String :=
  Table.bindOrder t ++ t.meta_columns.map MetaColumn.field

/-- One if-branch of the emitted chain: compare the requested column field
with the branch's field name; on a hit return the query extended with the
value of that field of self. -/
def chainBind : List String → Instance → String → Query → Option Query
  | [], _, _, _ => none
  | f :: rest, self, col, query =>
    if col = f then some (query ++ [self f]) else chainBind rest self col query

/-- The Bind::bind implementation emitted by Table::quote_bind_impl (table.rs
lines 287-347): run the if-chain over primary key, foreign keys and data
columns; fall through to Error::Bind(BindError::Unknown(col.field())). -/
def Table.bindImpl (t : Table) (self : Instance) (col : String) (query : Query) : Except Error Query :=
  match chainBind (Table.bindOrder t) self col query with
  | some q => Except.ok q
  | none => Except.error (Error.bind (BindError.unknown col))

/-- The items emitted per foreign key by Table::quote_rel_impls (table.rs
lines 209-285): the two accessor fns on the owning entity and the referenced
entity, the cascade-delete fn, and the RefersTo / ReferedBy trait impls.
Arguments record the entities and, where present in the source item, the
foreign-key column; the ReferedBy impl carries no column. -/
inductive RelImpl where
  | resolveParentFn (selfEntity other col : String)
  | resolveChildrenFn (other selfEntity col : String)
  | deleteChildrenFn (other selfEntity col : String)
  | refersTo (selfEntity other col : String)
  | referedBy (other selfEntity : String)
deriving DecidableEq

/-- Table::quote_rel_impls (table.rs lines 209-285): for every foreign key of
the table, emit the five items of the relation set in one extend call. -/
def Table.quote_rel_impls (t : Table) : List RelImpl :=
  (t.foreign_keys.map (fun fk =>
    [RelImpl.resolveParentFn t.ident fk.on_entity fk.field,
     RelImpl.resolveChildrenFn fk.on_entity t.ident fk.field,
     RelImpl.deleteChildrenFn fk.on_entity t.ident fk.field,
     RelImpl.refersTo t.ident fk.on_entity fk.field,
     RelImpl.referedBy fk.on_entity t.ident])).flatten

/-- Result::unwrap of Rust: the value on Ok, a panic on Err. The panic is
modelled as `none`. -/
def rustUnwrap {ε α : Type} : Except ε α → Option α
  | Except.ok a => some a
  | Except.error _ => none

/-- Opaque error coming back from the storage driver. -/
abbrev DriverError := String

/-- A decoded row. -/
abbrev Row := List Value

/-- Body emitted by the query attribute macro (lib.rs lines 62-87): the
function block is rewritten to Ok(#block.fetch_one(pool).await.unwrap()).
Input is the driver result of the fetch; output is the rewritten function's
result, `none` when the generated code panics. -/
def queryGenerated (fetched : Except DriverError Row) : Option (Except DriverError Row) :=
  (rustUnwrap fetched).map Except.ok

/-- Accumulator of the sql proc-macro loop (lib.rs lines 94-95): the
sanitized query text and the collected argument names. -/
structure SqlAcc where
  sanitized : String
  args : List String
deriving DecidableEq

/-- One iteration of the sql macro loop (lib.rs lines 97-109): a word
starting with a dollar sign pushes its remainder onto args and appends a
positional placeholder numbered args.len(); any other word is appended
verbatim. Both branches prepend one space. -/
def sqlStep (acc : SqlAcc) (word : String) : SqlAcc :=
  if word.startsWith ("$") then
    let arg := word.drop 1
    let args := acc.args ++ [arg]
    { sanitized := acc.sanitized ++ " $" ++ toString args.length, args := args }
  else
    { sanitized := acc.sanitized ++ " " ++ word, args := acc.args }

/-- The sql proc macro (lib.rs lines 89-121): split the raw token text on
single spaces and run the loop from an empty accumulator. -/
def sql (raw : String) : SqlAcc :=
  (raw.splitOn " ").foldl sqlStep { sanitized := "", args := [] }

/-- Specification-side rendering of the sanitized text, following the words
of the claim: the n-th dollar-prefixed word (1-based) becomes a positional
placeholder with index n, other words stay as they are; the counter argument
is the number of dollar words already seen. -/
def sqlSpecText : List String → Nat → String
  | [], _ => ""
  | w :: ws, n =>
    if w.startsWith ("$") then " $" ++ toString (n + 1) ++ sqlSpecText ws (n + 1)
    else " " ++ w ++ sqlSpecText ws n

/-- Specification-side argument list: the dollar-prefixed words, in order,
without their dollar sign. -/
def sqlSpecArgs (ws : List String) : List String :=
  (ws.filter (fun w => w.startsWith ("$"))).map (fun w => w.drop 1)

/-- Last value assigned to key k by the pair list, starting from init: the
net effect of the assignment loop of TableId::parse on one of its two
option accumulators. -/
def lastVal (k : String) : List (String × String) → Option String → Option String
  | [], acc => acc
  | p :: rest, acc => lastVal k rest (if p.1 = k then some p.2 else acc)

/-- Decidable check that the pattern occurs at the head of the character
list. -/
def prefixAt : List Char → List Char → Bool
  | [], _ => true
  | _ :: _, [] => false
  | c :: cs, d :: ds => c == d && prefixAt cs ds

/-- Decidable check that the pattern occurs somewhere in the character
list. -/
def containsChars (pat : List Char) : List Char → Bool
  | [] => prefixAt pat []
  | d :: ds => prefixAt pat (d :: ds) || containsChars pat ds

/-- String containment: needle occurs as a contiguous substring of hay. -/
def strContainsB (hay needle : String) : Bool :=
  containsChars needle.data hay.data

/-- Example entity descriptor used by concrete instantiations: a table T with
primary key zqid, one foreign key zqfk referencing Other, one data column zq1
and one meta column zqm. -/
def exTable : Table :=
  { ident := "T"
    id := { schema := "public", table := "t" }
    primary_key := { field := "zqid" }
    foreign_keys := [{ field := "zqfk", on_entity := "Other" }]
    data_columns := [{ field := "zq1" }]
    meta_columns := [{ field := "zqm" }] }

/-- Example instance of exTable: concrete field values. -/
def exInst : Instance :=
  fun f => if f = "zqid" then 1 else if f = "zqfk" then 2 else if f = "zq1" then 3 else 0

/-- Entity declaration with two primary-key-marked fields zqa and zqb. -/
def c1item : ItemStruct :=
  { ident := "T"
    attrs := [("table", [("schema", "public"), ("name", "t")])]
    fields := FieldsKind.named [Column.primaryKey { field := "zqa" }, Column.primaryKey { field := "zqb" }] }

/-- Two distinct descriptors carrying the same struct identifier A. -/
def exT1 : Table :=
  { ident := "A", id := { schema := "public", table := "a" }
    primary_key := { field := "id" }, foreign_keys := [], data_columns := [], meta_columns := [] }

/-- Second descriptor with identifier A, different in every other part. -/
def exT2 : Table :=
  { ident := "A", id := { schema := "public", table := "a2" }
    primary_key := { field := "id2" }, foreign_keys := [], data_columns := [], meta_columns := [] }

/-- Descriptor carrying the same declared (schema, table) pair as exT1 but a
different struct identifier B. -/
def exT3 : Table :=
  { ident := "B", id := { schema := "public", table := "a" }
    primary_key := { field := "id" }, foreign_keys := [], data_columns := [], meta_columns := [] }

/-- Declared column list with one primary key and two data columns, in
declaration order zqid, zq1, zq2. -/
def c5cols : List Column :=
  [Column.primaryKey { field := "zqid" }, Column.dataColumn { field := "zq1" }, Column.dataColumn { field := "zq2" }]

/-- Entity declaration for the order-preservation check. -/
def c5item : ItemStruct :=
  { ident := "T5"
    attrs := [("table", [("schema", "public"), ("name", "t5")])]
    fields := FieldsKind.named c5cols }

/-- Declared column list with exactly one primary-key-marked field. -/
def c6cols : List Column :=
  [Column.primaryKey { field := "zqid" }, Column.dataColumn { field := "zq1" }]

/-- Entity declaration with exactly one primary-key-marked field. -/
def c6item : ItemStruct :=
  { ident := "T6"
    attrs := [("table", [("schema", "public"), ("name", "t6")])]
    fields := FieldsKind.named c6cols }

/-- A failing driver result: the statement execution came back with an
error. -/
def c8failing : Except DriverError Row := Except.error ("connection reset")

lemma string_nil_append (s : String) : "" ++ s = s := by
  cases s
  rfl

lemma chainBind_not_mem (fields : List String) (self : Instance) (col : String) (query : Query)
    (h : col ∉ fields) : chainBind fields self col query = none := by
  induction fields with
  | nil => rfl
  | cons f rest ih =>
    have hne : col ≠ f := fun hc => h (hc ▸ List.mem_cons_self f rest)
    have hrest : col ∉ rest := fun hc => h (List.mem_cons_of_mem f hc)
    simp [chainBind, hne, ih hrest]

lemma chainBind_mem (fields : List String) (self : Instance) (col : String) (query : Query)
    (h : col ∈ fields) : chainBind fields self col query = some (query ++ [self col]) := by
  induction fields with
  | nil => exact absurd h (List.not_mem_nil col)
  | cons f rest ih =>
    by_cases hc : col = f
    · subst hc
      simp [chainBind]
    · rcases List.mem_cons.mp h with h1 | h2
      · exact absurd h1 hc
      · simp [chainBind, hc, ih h2]

lemma lastVal_of_not_mem (k : String) (args : List (String × String)) (acc : Option String)
    (h : ∀ p ∈ args, p.1 ≠ k) : lastVal k args acc = acc := by
  induction args generalizing acc with
  | nil => rfl
  | cons p rest ih =>
    have hp : p.1 ≠ k := h p (List.mem_cons_self p rest)
    have hrest : ∀ q ∈ rest, q.1 ≠ k := fun q hq => h q (List.mem_cons_of_mem p hq)
    simp [lastVal, hp, ih _ hrest]

lemma lastVal_isSome_of_some (k : String) (args : List (String × String)) (v : String) :
    ∃ w, lastVal k args (some v) = some w := by
  induction args generalizing v with
  | nil => exact ⟨v, rfl⟩
  | cons p rest ih =>
    by_cases hp : p.1 = k
    · simpa [lastVal, hp] using ih p.2
    · simpa [lastVal, hp] using ih v

lemma lastVal_of_mem (k : String) (args : List (String × String)) (acc : Option String)
    (h : ∃ p ∈ args, p.1 = k) : ∃ w, lastVal k args acc = some w := by
  induction args generalizing acc with
  | nil => simp at h
  | cons p rest ih =>
    by_cases hp : p.1 = k
    · simpa [lastVal, hp] using lastVal_isSome_of_some k rest p.2
    · have h2 : ∃ q ∈ rest, q.1 = k := by
        rcases h with ⟨q, hq, hqk⟩
        rcases List.mem_cons.mp hq with h1 | h1
        · exact absurd (h1 ▸ hqk) hp
        · exact ⟨q, h1, hqk⟩
      simpa [lastVal, hp] using ih _ h2

lemma tableIdLoop_good (args : List (String × String)) (s t : Option String)
    (h : ∀ p ∈ args, p.1 = "schema" ∨ p.1 = "name") :
    TableId.loop args s t = TableId.finish (lastVal ("schema") args s) (lastVal ("name") args t) := by
  induction args generalizing s t with
  | nil => rfl
  | cons p rest ih =>
    have hp := h p (List.mem_cons_self p rest)
    have hrest : ∀ q ∈ rest, q.1 = "schema" ∨ q.1 = "name" :=
      fun q hq => h q (List.mem_cons_of_mem p hq)
    rcases hp with hp | hp
    · have hps : p.1 ≠ "name" := by simp [hp]
      rcases p with ⟨k, v⟩
      simp only at hp
      subst hp
      simp [TableId.loop, lastVal, ih _ _ hrest]
    · by_cases hps : p.1 = "schema"
      · rcases p with ⟨k, v⟩
        simp only at hps
        subst hps
        simp [TableId.loop, lastVal, ih _ _ hrest]
      · rcases p with ⟨k, v⟩
        simp only at hp
        subst hp
        simp [TableId.loop, lastVal, hps, ih _ _ hrest]

lemma tableIdLoop_bad (args : List (String × String)) (s t : Option String)
    (h : ∃ p ∈ args, p.1 ≠ "schema" ∧ p.1 ≠ "name") :
    TableId.loop args s t = Except.error ("`#[table]` supports only the values `schema` and `name`") := by
  induction args generalizing s t with
  | nil => simp at h
  | cons p rest ih =>
    rcases p with ⟨k, v⟩
    by_cases hk : k = "schema"
    · subst hk
      have h2 : ∃ q ∈ rest, q.1 ≠ "schema" ∧ q.1 ≠ "name" := by
        rcases h with ⟨q, hq, hqk⟩
        rcases List.mem_cons.mp hq with h1 | h1
        · subst h1; simp at hqk
        · exact ⟨q, h1, hqk⟩
      simp [TableId.loop, ih _ _ h2]
    · by_cases hn : k = "name"
      · subst hn
        have h2 : ∃ q ∈ rest, q.1 ≠ "schema" ∧ q.1 ≠ "name" := by
          rcases h with ⟨q, hq, hqk⟩
          rcases List.mem_cons.mp hq with h1 | h1
          · subst h1; simp at hqk
          · exact ⟨q, h1, hqk⟩
        simp [TableId.loop, hk, ih _ _ h2]
      · simp [TableId.loop, hk, hn]

lemma parseWith_eq (iter : List Column → List Column) (item : ItemStruct)
    (argsL : List (String × String)) (tid : TableId) (cols : List Column)
    (hattr : item.attrs.find? (fun a => a.1 == "table") = some ("table", argsL))
    (hid : TableId.parseArgs argsL = Except.ok tid)
    (hfields : item.fields = FieldsKind.named cols) :
    Table.parseWith iter item =
      (if ((iter cols).filterMap Column.as_primary_key).length > 1 then
        Except.error (item.ident ++ " declares more than one column as its primary key – only one is allowed")
      else
        match (iter cols).filterMap Column.as_primary_key with
        | [] => Except.error (item.ident ++ " must declare one field as its primary key (using `#[primary_key]`")
        | pk :: _ =>
          Except.ok {
            ident := item.ident
            id := tid
            primary_key := pk
            foreign_keys := (iter cols).filterMap Column.as_foreign_key
            data_columns := (iter cols).filterMap Column.as_data_column
            meta_columns := (iter cols).filterMap Column.as_meta_column }) := by
  simp [Table.parseWith, hattr, hid, hfields, Bind.bind, Except.bind]

lemma parseWith_no_attr (iter : List Column → List Column) (item : ItemStruct)
    (hattr : item.attrs.find? (fun a => a.1 == "table") = none) :
    Table.parseWith iter item =
      Except.error ("You need to use the `#[table]` attribute if you want to derive `Schema`") := by
  simp [Table.parseWith, hattr, Bind.bind, Except.bind]

lemma registerAll_lookup_inv (ts : List Table) (db0 db : Database)
    (h0 : ∀ k t, dbLookup db0 k = some t → k = (Schema.default, t.ident))
    (h : registerAll db0 ts = some db) :
    ∀ k t, dbLookup db k = some t → k = (Schema.default, t.ident) := by
  induction ts generalizing db0 with
  | nil =>
    simp only [registerAll, Option.some.injEq] at h
    exact h ▸ h0
  | cons t rest ih =>
    simp only [registerAll, registerTable] at h
    by_cases hc : dbContainsKey db0 (Schema.default, t.ident)
    · simp [hc] at h
    · simp only [hc, if_neg, Bool.false_eq_true, not_false_eq_true, if_false] at h
      refine ih _ ?_ h
      intro k u hk
      by_cases hke : ((Schema.default, t.ident) : Tid) = k
      · simp only [dbLookup, hke, if_pos] at hk
        cases hk
        exact hke.symm
      · simp only [dbLookup, hke, if_neg, not_false_eq_true] at hk
        exact h0 k u hk

lemma sql_fold (ws : List String) (acc : SqlAcc) :
    ws.foldl sqlStep acc =
      { sanitized := acc.sanitized ++ sqlSpecText ws acc.args.length
        args := acc.args ++ sqlSpecArgs ws } := by
  induction ws generalizing acc with
  | nil => simp [sqlSpecText, sqlSpecArgs]
  | cons w rest ih =>
    by_cases hw : w.startsWith ("$")
    · have hstep : sqlStep acc w =
          { sanitized := acc.sanitized ++ (" $" ++ toString (acc.args.length + 1))
            args := acc.args ++ [w.drop 1] } := by
        simp [sqlStep, hw, String.append_assoc]
      rw [List.foldl_cons, hstep, ih]
      simp [sqlSpecText, sqlSpecArgs, hw, String.append_assoc, List.append_assoc]
    · have hstep : sqlStep acc w =
          { sanitized := acc.sanitized ++ (" " ++ w), args := acc.args } := by
        simp [sqlStep, hw, String.append_assoc]
      rw [List.foldl_cons, hstep, ih]
      simp [sqlSpecText, sqlSpecArgs, hw, String.append_assoc]

lemma mem_rel_impls (t : Table) (x : RelImpl) :
    x ∈ Table.quote_rel_impls t ↔
      ∃ fk ∈ t.foreign_keys,
        x ∈ [RelImpl.resolveParentFn t.ident fk.on_entity fk.field,
             RelImpl.resolveChildrenFn fk.on_entity t.ident fk.field,
             RelImpl.deleteChildrenFn fk.on_entity t.ident fk.field,
             RelImpl.refersTo t.ident fk.on_entity fk.field,
             RelImpl.referedBy fk.on_entity t.ident] := by
  simp only [Table.quote_rel_impls, List.mem_flatten, List.mem_map]
  constructor
  · rintro ⟨l, ⟨fk, hfk, rfl⟩, hx⟩
    exact ⟨fk, hfk, hx⟩
  · rintro ⟨fk, hfk, hx⟩
    exact ⟨_, ⟨fk, hfk, rfl⟩, hx⟩

/-- C3: for every entity instance and every column descriptor, the generated
bind dispatcher tests column field-name equality along the fixed sequence
bindOrder (the primary key first, then the foreign keys, then the data
columns); a column whose field name occurs there gets the instance's value
of that field bound onto the query and the call returns, and a column whose
field name occurs nowhere in that sequence makes the call return the
UnknownColumn bind error carrying the column's field name; being a total
function into Except, the dispatcher never panics. -/
theorem C3_bind_dispatch (t : Table) (self : Instance) (col : String) (query : Query) :
    (col ∈ Table.bindOrder t →
      Table.bindImpl t self col query = Except.ok (query ++ [self col]))
    ∧ (col ∉ Table.bindOrder t →
      Table.bindImpl t self col query = Except.error (Error.bind (BindError.unknown col))) := by
  constructor
  · intro h
    simp [Table.bindImpl, chainBind_mem (Table.bindOrder t) self col query h]
  · intro h
    simp [Table.bindImpl, chainBind_not_mem (Table.bindOrder t) self col query h]

/-- C3 witness: on the example table, binding the data column zq1 appends the
instance's zq1 value. -/
theorem C3_bind_dispatch_witness :
    Table.bindImpl exTable exInst "zq1" [] = Except.ok ([] ++ [exInst "zq1"]) :=
  (C3_bind_dispatch exTable exInst "zq1" []).1 (by decide)

/-- C4 counterexample: the meta column zqm belongs to the example entity's
descriptor, yet bind answers UnknownColumn for it instead of a bound
parameter, because the generated dispatcher omits meta columns. -/
theorem C4_counterexample :
    ({ field := "zqm" } : MetaColumn) ∈ exTable.meta_columns
    ∧ Table.bindImpl exTable exInst "zqm" [] =
        Except.error (Error.bind (BindError.unknown ("zqm"))) := by
  constructor
  · decide
  · rfl

/-- C4 (amended): for every entity instance and every primary-key,
foreign-key or data column of the entity's descriptor, bind returns the
query extended with the instance's value of that field; for every meta
column of the descriptor, and for every column not belonging to the entity
at all, bind returns UnknownColumn (the descriptor's column names being
pairwise distinct). -/
theorem C4_bind_belonging (t : Table) (self : Instance) (col : String) (query : Query)
    (hnodup : (Table.allColumnFields t).Nodup) :
    (col ∈ Table.bindOrder t →
      Table.bindImpl t self col query = Except.ok (query ++ [self col]))
    ∧ (col ∈ t.meta_columns.map MetaColumn.field →
      Table.bindImpl t self col query = Except.error (Error.bind (BindError.unknown col)))
    ∧ (col ∉ Table.allColumnFields t →
      Table.bindImpl t self col query = Except.error (Error.bind (BindError.unknown col))) := by
  have hdisj := (List.nodup_append.mp hnodup).2.2
  refine ⟨?_, ?_, ?_⟩
  · intro h
    simp [Table.bindImpl, chainBind_mem (Table.bindOrder t) self col query h]
  · intro h
    have hnot : col ∉ Table.bindOrder t := fun hmem => hdisj hmem h
    simp [Table.bindImpl, chainBind_not_mem (Table.bindOrder t) self col query hnot]
  · intro h
    have hnot : col ∉ Table.bindOrder t := fun hmem =>
      h (List.mem_append_left _ hmem)
    simp [Table.bindImpl, chainBind_not_mem (Table.bindOrder t) self col query hnot]

/-- C4 witness: on the example table the amended theorem applies; the meta
column zqm yields UnknownColumn. -/
theorem C4_bind_belonging_witness :
    Table.bindImpl exTable exInst "zqm" [] =
      Except.error (Error.bind (BindError.unknown ("zqm"))) :=
  (C4_bind_belonging exTable exInst "zqm" [] (by decide)).2.1 (by decide)

/-- C5: the source collects the classified fields into HashSets, so the only
guarantee on the order of the partitioned column lists is that they
enumerate the sets in some unspecified order; reversal is one such order,
and under it the derived descriptor lists the data columns in the order
zq2, zq1 although the fields were declared zq1, zq2 — declaration order is
not preserved. -/
theorem C5_hashset_order_loss :
    (∀ l : List Column, l.reverse.Perm l)
    ∧ (∃ t, Table.parseWith List.reverse c5item = Except.ok t
        ∧ t.data_columns ≠ c5cols.filterMap Column.as_data_column) := by
  refine ⟨fun l => List.reverse_perm l, ?_⟩
  refine ⟨{ ident := "T5", id := { schema := "public", table := "t5" },
            primary_key := { field := "zqid" }, foreign_keys := [],
            data_columns := [{ field := "zq2" }, { field := "zq1" }],
            meta_columns := [] }, ?_, ?_⟩
  · rfl
  · decide

/-- C7: every ReferedBy impl that quote_rel_impls emits for a pair of
entities comes from a foreign-key column of the deriving entity, and for
that same column the matching RefersTo impl, the resolve-parent accessor,
the resolve-children accessor and the cascade-delete accessor are all in
the emitted stream as well; conversely every foreign key gives rise to all
five items of its matched set. -/
theorem C7_relation_matched_set (t : Table) (f e : String)
    (hmem : RelImpl.referedBy f e ∈ Table.quote_rel_impls t) :
    (e = t.ident ∧ ∃ c, ({ field := c, on_entity := f } : ForeignKey) ∈ t.foreign_keys
      ∧ RelImpl.refersTo e f c ∈ Table.quote_rel_impls t
      ∧ RelImpl.resolveParentFn e f c ∈ Table.quote_rel_impls t
      ∧ RelImpl.resolveChildrenFn f e c ∈ Table.quote_rel_impls t
      ∧ RelImpl.deleteChildrenFn f e c ∈ Table.quote_rel_impls t)
    ∧ (∀ fk ∈ t.foreign_keys,
        RelImpl.resolveParentFn t.ident fk.on_entity fk.field ∈ Table.quote_rel_impls t
        ∧ RelImpl.resolveChildrenFn fk.on_entity t.ident fk.field ∈ Table.quote_rel_impls t
        ∧ RelImpl.deleteChildrenFn fk.on_entity t.ident fk.field ∈ Table.quote_rel_impls t
        ∧ RelImpl.refersTo t.ident fk.on_entity fk.field ∈ Table.quote_rel_impls t
        ∧ RelImpl.referedBy fk.on_entity t.ident ∈ Table.quote_rel_impls t) := by
  constructor
  · rcases (mem_rel_impls t _).mp hmem with ⟨fk, hfk, hx⟩
    simp only [List.mem_cons, List.not_mem_nil, or_false] at hx
    rcases hx with h | h | h | h | h
    · cases h
    · cases h
    · cases h
    · cases h
    have hf : f = fk.on_entity := by cases h; rfl
    have he : e = t.ident := by cases h; rfl
    subst hf
    subst he
    refine ⟨rfl, fk.field, ?_, ?_, ?_, ?_, ?_⟩
    · have : fk = { field := fk.field, on_entity := fk.on_entity } := rfl
      exact this ▸ hfk
    · exact (mem_rel_impls t _).mpr ⟨fk, hfk, by simp⟩
    · exact (mem_rel_impls t _).mpr ⟨fk, hfk, by simp⟩
    · exact (mem_rel_impls t _).mpr ⟨fk, hfk, by simp⟩
    · exact (mem_rel_impls t _).mpr ⟨fk, hfk, by simp⟩
  · intro fk hfk
    refine ⟨?_, ?_, ?_, ?_, ?_⟩ <;> exact (mem_rel_impls t _).mpr ⟨fk, hfk, by simp⟩

/-- C7 witness: the example table refers to Other through zqfk, and the
matched set is present. -/
theorem C7_relation_matched_set_witness :
    RelImpl.refersTo "T" "Other" "zqfk" ∈ Table.quote_rel_impls exTable
    ∧ RelImpl.referedBy "Other" "T" ∈ Table.quote_rel_impls exTable := by
  have h := (C7_relation_matched_set exTable "Other" "T" (by decide)).2
      { field := "zqfk", on_entity := "Other" } (by decide)
  exact ⟨h.2.2.2.1, h.2.2.2.2⟩

/-- C8: the body that the query attribute macro generates is
Ok(block.fetch_one(pool).await.unwrap()); when statement execution yields a
driver error the unwrap panics (modelled as none) instead of returning the
error value, while a successful fetch is passed through wrapped in Ok. -/
theorem C8_query_unwrap_panics :
    queryGenerated c8failing = none
    ∧ queryGenerated (Except.ok [1]) = some (Except.ok [1]) :=
  ⟨rfl, rfl⟩

/-- C9: for every token text given to the sql macro, the sanitized output
renders each whitespace-separated dollar-prefixed word as a positional
placeholder whose index is the 1-based count of dollar words seen so far,
leaves other words as they are, and the collected argument list is exactly
the dollar words without their sign, in order of appearance. -/
theorem C9_sql_placeholders (raw : String) :
    (sql raw).sanitized = sqlSpecText (raw.splitOn " ") 0
    ∧ (sql raw).args = sqlSpecArgs (raw.splitOn " ") := by
  have h := sql_fold (raw.splitOn " ") { sanitized := "", args := [] }
  constructor
  · rw [sql, h]
    exact string_nil_append _
  · rw [sql, h]
    rfl

/-- C1 counterexample: the declaration c1item marks the two fields zqa and
zqb as primary keys; derivation fails with the ambiguous-primary-key
declaration error, but that error names only the entity — neither offending
field name occurs anywhere in the message, refuting the claim that the
error names all offending fields. -/
theorem C1_counterexample :
    Table.parseWith (fun l => l) c1item =
      Except.error ("T declares more than one column as its primary key – only one is allowed")
    ∧ strContainsB ("T declares more than one column as its primary key – only one is allowed") ("zqa") = false
    ∧ strContainsB ("T declares more than one column as its primary key – only one is allowed") ("zqb") = false := by
  refine ⟨rfl, ?_, ?_⟩ <;> decide

/-- C1 (amended): for every entity declaration that carries a well-formed
table attribute and named fields, derivation succeeds exactly when exactly
one field is classified as the primary key; with zero primary-key fields it
fails with the missing-primary-key declaration error, and with two or more
it fails with the ambiguous-primary-key declaration error, which names the
entity (not the offending fields). -/
theorem C1_primary_key_cardinality
    (iter : List Column → List Column) (hiter : ∀ l, (iter l).Perm l)
    (item : ItemStruct) (argsL : List (String × String)) (tid : TableId) (cols : List Column)
    (hattr : item.attrs.find? (fun a => a.1 == "table") = some ("table", argsL))
    (hid : TableId.parseArgs argsL = Except.ok tid)
    (hfields : item.fields = FieldsKind.named cols)
    (_hnodup : (cols.map Column.field).Nodup) :
    ((∃ t, Table.parseWith iter item = Except.ok t)
      ↔ (cols.filterMap Column.as_primary_key).length = 1)
    ∧ ((cols.filterMap Column.as_primary_key).length = 0 →
        Table.parseWith iter item =
          Except.error (item.ident ++ " must declare one field as its primary key (using `#[primary_key]`"))
    ∧ (1 < (cols.filterMap Column.as_primary_key).length →
        Table.parseWith iter item =
          Except.error (item.ident ++ " declares more than one column as its primary key – only one is allowed")) := by
  have hperm := (hiter cols).filterMap Column.as_primary_key
  have hlen := hperm.length_eq
  rw [parseWith_eq iter item argsL tid cols hattr hid hfields]
  rcases hI : (iter cols).filterMap Column.as_primary_key with _ | ⟨pk, _ | ⟨pk2, rest⟩⟩
  · rw [hI] at hlen
    simp only [List.length_nil] at hlen
    refine ⟨⟨?_, ?_⟩, ?_, ?_⟩
    · rintro ⟨t, ht⟩
      simp [hI] at ht
    · intro h1
      omega
    · intro _
      simp [hI]
    · intro hgt
      omega
  · rw [hI] at hlen
    simp only [List.length_cons, List.length_nil] at hlen
    refine ⟨⟨?_, ?_⟩, ?_, ?_⟩
    · intro _
      omega
    · intro _
      refine ⟨{ ident := item.ident, id := tid, primary_key := pk,
                foreign_keys := (iter cols).filterMap Column.as_foreign_key,
                data_columns := (iter cols).filterMap Column.as_data_column,
                meta_columns := (iter cols).filterMap Column.as_meta_column }, ?_⟩
      simp
    · intro h0
      omega
    · intro hgt
      omega
  · rw [hI] at hlen
    simp only [List.length_cons] at hlen
    refine ⟨⟨?_, ?_⟩, ?_, ?_⟩
    · rintro ⟨t, ht⟩
      rw [if_pos (by simp only [List.length_cons, gt_iff_lt]; omega)] at ht
      cases ht
    · intro h1
      omega
    · intro h0
      omega
    · intro _
      rw [if_pos (by simp only [List.length_cons, gt_iff_lt]; omega)]

/-- C1 witness: a declaration with exactly one primary key derives
successfully, matching the success side of the amended equivalence. -/
theorem C1_primary_key_cardinality_witness :
    ∃ t, Table.parseWith (fun l => l) c6item = Except.ok t :=
  (C1_primary_key_cardinality (fun l => l) (fun l => List.Perm.refl l) c6item
      [("schema", "public"), ("name", "t6")] { schema := "public", table := "t6" }
      c6cols rfl rfl rfl (by decide)).1.mpr (by decide)

/-- C2 counterexample: exT1 and exT3 are distinct entity declarations
carrying the same declared (schema, table) pair (public, a), yet the second
registration succeeds rather than failing fatally, because the registry
keys entries by (Schema::Default, struct identifier) and ignores the
declared pair; the resulting registry holds two descriptors for one
declared pair, so no bijection between declared pairs and descriptors is
maintained. -/
theorem C2_counterexample :
    exT1.id = exT3.id ∧ exT1 ≠ exT3
    ∧ registerTable [] exT1 = some [((Schema.default, "A"), exT1)]
    ∧ registerTable [((Schema.default, "A"), exT1)] exT3 =
        some [((Schema.default, "B"), exT3), ((Schema.default, "A"), exT1)] := by
  refine ⟨rfl, ?_, rfl, rfl⟩
  decide

/-- C2 (amended): the registry keys entries by (Schema::Default, struct
identifier), not by the declared (schema, table) pair: registering a single
entity into the empty registry succeeds; a second registration whose
descriptor carries the same identifier fails fatally; two distinct
declarations carrying the same declared (schema, table) pair but different
identifiers both register; and every registry reachable by successful
registrations maps each registered key to the descriptor that claims it,
with distinct keys holding distinct descriptors — a bijection between
registered (Schema::Default, identifier) keys and descriptors. -/
theorem C2_registry_unique :
    (∀ t : Table, registerTable [] t = some [((Schema.default, t.ident), t)])
    ∧ (∀ (db db1 : Database) (t1 t2 : Table), t1.ident = t2.ident →
        registerTable db t1 = some db1 → registerTable db1 t2 = none)
    ∧ (∀ (t1 t2 : Table), t1.id = t2.id → t1.ident ≠ t2.ident →
        ∃ db1 db2, registerTable [] t1 = some db1 ∧ registerTable db1 t2 = some db2)
    ∧ (∀ (ts : List Table) (db : Database), registerAll [] ts = some db →
        (∀ k t, dbLookup db k = some t → k = (Schema.default, t.ident))
        ∧ (∀ k1 k2 t, dbLookup db k1 = some t → dbLookup db k2 = some t → k1 = k2)) := by
  refine ⟨fun t => rfl, ?_, ?_, ?_⟩
  · intro db db1 t1 t2 hident hreg
    by_cases hc : dbContainsKey db (Schema.default, t1.ident)
    · simp [registerTable, hc] at hreg
    · simp only [registerTable, hc, Bool.false_eq_true, not_false_eq_true, if_neg,
        Option.some.injEq] at hreg
      subst hreg
      have hkey : dbContainsKey ((((Schema.default, t1.ident) : Tid), t1) :: db)
          (Schema.default, t2.ident) = true := by
        simp [dbContainsKey, dbLookup, hident]
      simp [registerTable, hkey]
  · intro t1 t2 _hid hne
    refine ⟨[((Schema.default, t1.ident), t1)],
      [((Schema.default, t2.ident), t2), ((Schema.default, t1.ident), t1)], rfl, ?_⟩
    have hkey : dbContainsKey [((Schema.default, t1.ident), t1)]
        (Schema.default, t2.ident) = false := by
      simp [dbContainsKey, dbLookup, Prod.ext_iff, hne]
    simp [registerTable, hkey]
  · intro ts db h
    have hinv := registerAll_lookup_inv ts [] db (by intro k t hk; cases hk) h
    refine ⟨hinv, ?_⟩
    intro k1 k2 t h1 h2
    rw [hinv k1 t h1, hinv k2 t h2]

/-- C2 witness: concrete registrations; the first succeeds, the second with
the same identifier fails, and the same-pair different-identifier pair
exT1, exT3 both register. -/
theorem C2_registry_unique_witness :
    registerTable [] exT1 = some [((Schema.default, "A"), exT1)]
    ∧ registerTable [((Schema.default, "A"), exT1)] exT2 = none
    ∧ (∃ db1 db2, registerTable [] exT1 = some db1 ∧ registerTable db1 exT3 = some db2) := by
  refine ⟨C2_registry_unique.1 exT1, ?_, ?_⟩
  · exact C2_registry_unique.2.1 [] [((Schema.default, "A"), exT1)] exT1 exT2 rfl rfl
  · exact C2_registry_unique.2.2.1 exT1 exT3 rfl (by decide)

/-- C6: for every entity declaration with a well-formed table attribute,
named fields and exactly one primary-key-classified field, derivation
succeeds, the descriptor's primary-key column is exactly that field's
descriptor (so its name is the field's name, also in the emitted trait
impl), and the emitted pk accessor returns the instance's value of that
very field. -/
theorem C6_single_pk_descriptor
    (iter : List Column → List Column) (hiter : ∀ l, (iter l).Perm l)
    (item : ItemStruct) (argsL : List (String × String)) (tid : TableId)
    (cols : List Column) (pk : PrimaryKey)
    (hattr : item.attrs.find? (fun a => a.1 == "table") = some ("table", argsL))
    (hid : TableId.parseArgs argsL = Except.ok tid)
    (hfields : item.fields = FieldsKind.named cols)
    (hpk : cols.filterMap Column.as_primary_key = [pk]) :
    ∃ t, Table.parseWith iter item = Except.ok t
      ∧ t.primary_key = pk
      ∧ (Table.quote_table_impl t).PRIMARY_KEY.field = pk.field
      ∧ ∀ self : Instance, TableImpl.pk (Table.quote_table_impl t) self = self pk.field := by
  have hperm := (hiter cols).filterMap Column.as_primary_key
  rw [hpk] at hperm
  have hsingle : (iter cols).filterMap Column.as_primary_key = [pk] :=
    List.perm_singleton.mp hperm
  rw [parseWith_eq iter item argsL tid cols hattr hid hfields, hsingle]
  refine ⟨{ ident := item.ident, id := tid, primary_key := pk,
            foreign_keys := (iter cols).filterMap Column.as_foreign_key,
            data_columns := (iter cols).filterMap Column.as_data_column,
            meta_columns := (iter cols).filterMap Column.as_meta_column },
    ?_, rfl, rfl, fun self => rfl⟩
  simp

/-- C6 witness: the concrete single-primary-key declaration c6item derives a
descriptor whose primary key is the zqid field, and the pk accessor reads
zqid from the instance. -/
theorem C6_single_pk_descriptor_witness :
    ∃ t, Table.parseWith (fun l => l) c6item = Except.ok t
      ∧ t.primary_key = { field := "zqid" }
      ∧ (Table.quote_table_impl t).PRIMARY_KEY.field = "zqid"
      ∧ ∀ self : Instance, TableImpl.pk (Table.quote_table_impl t) self = self "zqid" :=
  C6_single_pk_descriptor (fun l => l) (fun l => List.Perm.refl l) c6item
    [("schema", "public"), ("name", "t6")] { schema := "public", table := "t6" }
    c6cols { field := "zqid" } rfl rfl rfl rfl

/-- C10: parsing the entity declaration fails with the corresponding
declaration error when the table attribute is absent, when some attribute
key is neither schema nor name, when no schema value is supplied, or when
no name value is supplied; and over well-formed keys the parse succeeds in
extracting the pair exactly when both schema and name are supplied. -/
theorem C10_table_attribute_parsing :
    (∀ (iter : List Column → List Column) (item : ItemStruct),
        item.attrs.find? (fun a => a.1 == "table") = none →
        Table.parseWith iter item =
          Except.error ("You need to use the `#[table]` attribute if you want to derive `Schema`"))
    ∧ (∀ args : List (String × String), (∃ p ∈ args, p.1 ≠ "schema" ∧ p.1 ≠ "name") →
        TableId.parseArgs args =
          Except.error ("`#[table]` supports only the values `schema` and `name`"))
    ∧ (∀ args : List (String × String), (∀ p ∈ args, p.1 = "schema" ∨ p.1 = "name") →
        (¬ ∃ p ∈ args, p.1 = "schema") →
        TableId.parseArgs args = Except.error ("`#[table]` requies a value for `schema`"))
    ∧ (∀ args : List (String × String), (∀ p ∈ args, p.1 = "schema" ∨ p.1 = "name") →
        (∃ p ∈ args, p.1 = "schema") → (¬ ∃ p ∈ args, p.1 = "name") →
        TableId.parseArgs args = Except.error ("`#[table]` requires a value for `name`"))
    ∧ (∀ args : List (String × String), (∀ p ∈ args, p.1 = "schema" ∨ p.1 = "name") →
        ((∃ tid, TableId.parseArgs args = Except.ok tid)
          ↔ ((∃ p ∈ args, p.1 = "schema") ∧ (∃ p ∈ args, p.1 = "name")))) := by
  refine ⟨?_, ?_, ?_, ?_, ?_⟩
  · intro iter item h
    exact parseWith_no_attr iter item h
  · intro args h
    exact tableIdLoop_bad args none none h
  · intro args hgood hns
    have hnone : ∀ p ∈ args, p.1 ≠ "schema" := by
      intro p hp hc
      exact hns ⟨p, hp, hc⟩
    rw [TableId.parseArgs, tableIdLoop_good args none none hgood,
      lastVal_of_not_mem ("schema") args none hnone]
    rfl
  · intro args hgood hs hnn
    have hnone : ∀ p ∈ args, p.1 ≠ "name" := by
      intro p hp hc
      exact hnn ⟨p, hp, hc⟩
    rcases lastVal_of_mem ("schema") args none hs with ⟨w, hw⟩
    rw [TableId.parseArgs, tableIdLoop_good args none none hgood, hw,
      lastVal_of_not_mem ("name") args none hnone]
    rfl
  · intro args hgood
    constructor
    · rintro ⟨tid, htid⟩
      rw [TableId.parseArgs, tableIdLoop_good args none none hgood] at htid
      by_cases hs : ∃ p ∈ args, p.1 = "schema"
      · by_cases hn : ∃ p ∈ args, p.1 = "name"
        · exact ⟨hs, hn⟩
        · have hnone : ∀ p ∈ args, p.1 ≠ "name" := fun p hp hc => hn ⟨p, hp, hc⟩
          rcases lastVal_of_mem ("schema") args none hs with ⟨w, hw⟩
          rw [hw, lastVal_of_not_mem ("name") args none hnone] at htid
          cases htid
      · have hnone : ∀ p ∈ args, p.1 ≠ "schema" := fun p hp hc => hs ⟨p, hp, hc⟩
        rw [lastVal_of_not_mem ("schema") args none hnone] at htid
        cases htid
    · rintro ⟨hs, hn⟩
      rcases lastVal_of_mem ("schema") args none hs with ⟨w1, hw1⟩
      rcases lastVal_of_mem ("name") args none hn with ⟨w2, hw2⟩
      rw [TableId.parseArgs, tableIdLoop_good args none none hgood, hw1, hw2]
      exact ⟨{ schema := w1, table := w2 }, rfl⟩

/-- C10 witness: supplying both keys extracts a pair; omitting name fails
with its missing-value error. -/
theorem C10_table_attribute_parsing_witness :
    (∃ tid, TableId.parseArgs [("schema", "public"), ("name", "t")] = Except.ok tid)
    ∧ TableId.parseArgs [("schema", "public")] =
        Except.error ("`#[table]` requires a value for `name`") := by
  constructor
  · exact (C10_table_attribute_parsing.2.2.2.2
      [("schema", "public"), ("name", "t")] (by decide)).mpr (by decide)
  · exact C10_table_attribute_parsing.2.2.2.1 [("schema", "public")] (by decide)
      (by decide) (by decide)

end Atmosphere
